import Mathlib

/-!
Shallow embedding of the retrieval-augmented-generation core of the
`stremlit-agentic-ai` repository, and proofs about it.

Embedded code:
* `src/bq_init.py` — `chunk_text` (sliding-window word chunking) and
  `embed_in_batches` (batched embedding orchestration);
* `src/vertex_agent.py` — `retrieve_pension_chunks` (dot-product similarity
  SQL query: `ORDER BY similarity DESC LIMIT top_k`),
  `get_cached_pension_chunks` (session cache keyed by
  `query.lower().strip()`), and `classify_domain` (intent router).

Python strings are modelled over `String` with explicit `List Char`
operations so that everything evaluates by kernel reduction; floating-point
similarity scores are modelled over an arbitrary `LinearOrderedCommRing`
(instantiated with `ℤ` in concrete evaluations).  The external embedding
model is an opaque per-item function; the BigQuery table is a list of rows
in an unspecified storage order.
-/

/-- Python `" ".join(ws)`: joins the given strings with single spaces. -/
def pyJoin : List String → String
  | [] => ""
  | [w] => w
  | w :: ws => w ++ " " ++ pyJoin ws

/-- Python list slice `l[a:b]` for `0 ≤ a ≤ b` (clipped to the list length). -/
def pySlice (l : List String) (a b : Nat) : List String :=
  (l.drop a).take (b - a)

/-- Accumulator pass of Python `str.split()` (no arguments): split on runs of
whitespace, discarding empty pieces.  `cur` holds the current word reversed. -/
def splitWS : List Char → List Char → List (List Char)
  | [], cur => if cur = [] then [] else [cur.reverse]
  | c :: cs, cur =>
    if c.isWhitespace then
      if cur = [] then splitWS cs [] else cur.reverse :: splitWS cs []
    else splitWS cs (c :: cur)

/-- Python `text.split()`: the whitespace-delimited words of `text`. -/
def pyWords (text : String) : List String :=
  (splitWS text.data []).map (fun w => String.mk w)

/-- The `while start < len(words)` loop of `chunk_text` (src/bq_init.py,
lines 66–70): emit `words[start:end]` joined by spaces, with
`end = min(start + chunk_size, len(words))`, then advance `start` by
`chunk_size - overlap`.  The hypothesis `overlap < chunk_size` makes the
loop well-founded. -/
def chunkLoop (words : List String) (chunk_size overlap : Nat)
    (h : overlap < chunk_size) (start : Nat) : List String :=
  if start < words.length then
    pyJoin (pySlice words start (min (start + chunk_size) words.length)) ::
      chunkLoop words chunk_size overlap h (start + (chunk_size - overlap))
  else []
termination_by words.length - start
decreasing_by omega

/-- The function `chunk_text(text, chunk_size, overlap)` from src/bq_init.py: split the
text into words and run the sliding-window loop from index 0. -/
def chunk_text (text : String) (chunk_size overlap : Nat)
    (h : overlap < chunk_size) : List String :=
  chunkLoop (pyWords text) chunk_size overlap h 0

/-- The token ranges `[start, end)` visited by the `chunk_text` loop over a
word list of length `n`: the same iteration as `chunkLoop`, recording the
slice bounds instead of the joined text. -/
def chunkRangesLoop (n chunk_size overlap : Nat) (h : overlap < chunk_size)
    (start : Nat) : List (Nat × Nat) :=
  if start < n then
    (start, min (start + chunk_size) n) ::
      chunkRangesLoop n chunk_size overlap h (start + (chunk_size - overlap))
  else []
termination_by n - start
decreasing_by omega

/-- Fuel-indexed version of the `chunk_text` loop, defined for arbitrary
`chunk_size` and `overlap` (no termination hypothesis): `none` means the
loop did not finish within `fuel` iterations. -/
def chunkFuel (words : List String) (chunk_size overlap start : Nat) :
    Nat → Option (List String)
  | 0 => none
  | fuel + 1 =>
    if start < words.length then
      (chunkFuel words chunk_size overlap (start + (chunk_size - overlap)) fuel).map
        (fun rest =>
          pyJoin (pySlice words start (min (start + chunk_size) words.length)) :: rest)
    else some []

/-- The chunk count asserted by the specification:
`ceil(max(N - O, 0) / (C - O))`, over natural numbers. -/
def specChunkCount (n chunk_size overlap : Nat) : Nat :=
  (max (n - overlap) 0 + (chunk_size - overlap) - 1) / (chunk_size - overlap)

/-- The function `embed_in_batches(texts, batch_size)` from src/bq_init.py, lines 95–105,
with the external `embedding_model.get_embeddings` modelled as an
order-preserving per-item map `g`: take `batch_size` texts at a time, embed
the batch, and append the batch results in order. -/
def embed_in_batches {V : Type} (g : String → V) (texts : List String)
    (batch_size : Nat) (h : 0 < batch_size) : List V :=
  if texts = [] then []
  else (texts.take batch_size).map g ++
    embed_in_batches g (texts.drop batch_size) batch_size h
termination_by texts.length
decreasing_by
  rename_i hne
  have : texts.length ≠ 0 := fun hl => hne (List.eq_nil_of_length_eq_zero hl)
  simp only [List.length_drop]
  omega

/-- Variant of `embed_in_batches` with the Python `range(0, len(texts), batch_size)`
semantics over an integer `batch_size`: a zero step raises
(`range() arg 3 must not be zero`), a negative step makes the range empty so
the loop body never runs and the empty list is returned. -/
def embedInBatchesPy {V : Type} (g : String → V) (texts : List String)
    (batch_size : Int) : Except String (List V) :=
  if h : 0 < batch_size then
    Except.ok (embed_in_batches g texts batch_size.toNat (by omega))
  else if batch_size = 0 then
    Except.error "range() arg 3 must not be zero"
  else Except.ok []

/-- A row of the `pension_chunks` BigQuery table (schema in src/bq_init.py,
lines 128–132), with the float64 embedding coordinates drawn from an
arbitrary linearly ordered commutative ring `α`. -/
structure CorpusRow (α : Type) where
  datapoint_id : String
  chunk_text : String
  embedding : List α
deriving DecidableEq, Repr

/-- The SQL similarity expression `SUM(x*y)` over offsets shared by the two
arrays (`JOIN ... ON i=j`): the dot product over the common index range. -/
def dotProduct {α : Type} [LinearOrderedCommRing α] (xs ys : List α) : α :=
  ((xs.zip ys).map (fun p => p.1 * p.2)).sum

/-- Every corpus row paired with its similarity against the query embedding,
in storage order. -/
def scoreRows {α : Type} [LinearOrderedCommRing α] (qe : List α)
    (corpus : List (CorpusRow α)) : List (CorpusRow α × α) :=
  corpus.map (fun r => (r, dotProduct r.embedding qe))

/-- The `ORDER BY similarity DESC` comparison: row `a` may precede row `b`
when the score of `b` is at most the score of `a`.  The SQL has no further sort key, so
equal scores leave the relative order unconstrained. -/
def scoreGE {α : Type} [LinearOrderedCommRing α]
    (a b : CorpusRow α × α) : Prop :=
  b.2 ≤ a.2

instance {α : Type} [LinearOrderedCommRing α] :
    DecidableRel (@scoreGE α _) :=
  fun a b => inferInstanceAs (Decidable (b.2 ≤ a.2))

instance {α : Type} [LinearOrderedCommRing α] :
    IsTotal (CorpusRow α × α) scoreGE :=
  ⟨fun a b => le_total b.2 a.2⟩

instance {α : Type} [LinearOrderedCommRing α] :
    IsTrans (CorpusRow α × α) scoreGE :=
  ⟨fun _ _ _ hab hbc => le_trans hbc hab⟩

/-- The scored rows of `ORDER BY similarity DESC LIMIT top_k`
(src/vertex_agent.py, lines 160–169): sort by score descending — modelled as
a stable sort over the storage order of the table, since the SQL specifies no
tie-break — and keep the first `top_k`. -/
def retrieveRows {α : Type} [LinearOrderedCommRing α] (qe : List α)
    (top_k : Nat) (corpus : List (CorpusRow α)) : List (CorpusRow α × α) :=
  (List.insertionSort scoreGE (scoreRows qe corpus)).take top_k

/-- One element of the list returned by `retrieve_pension_chunks`: the
dictionary `{"datapoint_id": ..., "chunk_text": ...}` (similarity is not
returned). -/
structure RetrievedChunk where
  datapoint_id : String
  chunk_text : String
deriving DecidableEq, Repr

/-- The function `retrieve_pension_chunks(query, top_k)` from src/vertex_agent.py, lines
148–175: embed the query with the opaque embedding model `g`, rank every
corpus row by dot-product similarity descending, keep `top_k`, and project
each row to its id and text. -/
def retrieve_pension_chunks {α : Type} [LinearOrderedCommRing α]
    (g : String → List α) (query : String) (top_k : Nat)
    (corpus : List (CorpusRow α)) : List RetrievedChunk :=
  (retrieveRows (g query) top_k corpus).map
    (fun s => ⟨s.1.datapoint_id, s.1.chunk_text⟩)

/-- Variant of `retrieve_pension_chunks` with an integer `top_k` as written in the SQL
`LIMIT {top_k}` interpolation: a negative literal is a BigQuery syntax
error, while `LIMIT 0` is legal and returns no rows. -/
def retrievePensionChunksPy {α : Type} [LinearOrderedCommRing α]
    (g : String → List α) (query : String) (top_k : Int)
    (corpus : List (CorpusRow α)) : Except String (List RetrievedChunk) :=
  if top_k < 0 then Except.error "Syntax error: Expected integer literal"
  else Except.ok (retrieve_pension_chunks g query top_k.toNat corpus)

/-- Python `str.lower()` (per-character lowering). -/
def pyLower (s : String) : String :=
  String.mk (s.data.map Char.toLower)

/-- Python `str.strip()`: drop leading and trailing whitespace. -/
def pyStrip (s : String) : String :=
  String.mk
    (((s.data.dropWhile Char.isWhitespace).reverse.dropWhile
        Char.isWhitespace).reverse)

/-- The cache key of `get_cached_pension_chunks`: `query.lower().strip()`
(src/vertex_agent.py, line 187). -/
def cacheKey (query : String) : String :=
  pyStrip (pyLower query)

/-- The session state touched by `get_cached_pension_chunks`:
`st.session_state.pension_chunks_cache` as an association list, plus a call
counter on the underlying retriever (the observable demanded by the
cache-idempotence property of the specification). -/
structure SessionCache where
  entries : List (String × List RetrievedChunk)
  retrievalCalls : Nat
deriving DecidableEq, Repr

/-- The function `get_cached_pension_chunks(query, top_k)` from src/vertex_agent.py,
lines 182–196, with the underlying `retrieve_pension_chunks` abstracted as
`f`: look up the normalized key; on a hit return the cached chunks
unchanged, on a miss call the retriever, store its result under the key and
count the call. -/
def get_cached_pension_chunks (f : String → Nat → List RetrievedChunk)
    (query : String) (top_k : Nat) (st : SessionCache) :
    List RetrievedChunk × SessionCache :=
  match st.entries.lookup (cacheKey query) with
  | some cached => (cached, st)
  | none =>
    let chunks := f query top_k
    (chunks,
      ⟨(cacheKey query, chunks) :: st.entries, st.retrievalCalls + 1⟩)

/-- The function `classify_domain(model, query)` from src/vertex_agent.py, lines 78–100,
with the generative-model call abstracted as its outcome: either an
exception (any raised error) or the response text.  The text is stripped
and validated against the three allowed labels; anything else, and any
exception, yields `"None"`. -/
def classify_domain (modelOutcome : Except String String) : String :=
  match modelOutcome with
  | Except.error _ => "None"
  | Except.ok t =>
    if pyStrip t ∈ (["Pensions", "Insurance", "None"] : List String) then
      pyStrip t
    else "None"

/-! ## Helper lemmas -/

/-- Ceiling-division step: peeling one full window off the front. -/
theorem ceil_div_step (n s : Nat) (hs : 1 ≤ s) (hn : 1 ≤ n) :
    (n + s - 1) / s = ((n - s) + s - 1) / s + 1 := by
  rcases le_or_lt n s with hle | hlt
  · have h1 : n - s = 0 := by omega
    have h2 : n + s - 1 = (n - 1) + s := by omega
    rw [h1, h2, Nat.add_div_right _ (by omega), Nat.div_eq_of_lt (by omega),
      Nat.div_eq_of_lt (by omega)]
  · have h2 : n + s - 1 = ((n - s) + s - 1) + s := by omega
    rw [h2, Nat.add_div_right _ (by omega)]

/-- The chunk loop emits exactly `⌈(len - start) / (chunk_size - overlap)⌉`
chunks. -/
theorem chunkLoop_length (words : List String) (cs o : Nat) (h : o < cs)
    (start : Nat) :
    (chunkLoop words cs o h start).length =
      ((words.length - start) + (cs - o) - 1) / (cs - o) := by
  induction start using chunkLoop.induct words cs o h with
  | case1 start hlt ih =>
    rw [chunkLoop, if_pos hlt]
    have hrw : words.length - (start + (cs - o)) =
        (words.length - start) - (cs - o) := by omega
    rw [List.length_cons, ih, hrw,
      (ceil_div_step (words.length - start) (cs - o) (by omega) (by omega)).symm]
  | case2 start hlt =>
    rw [chunkLoop, if_neg hlt]
    have h0 : words.length - start = 0 := by omega
    rw [h0, List.length_nil]
    rw [Nat.zero_add, Nat.div_eq_of_lt (by omega)]

/-- The chunk loop on an empty word list emits nothing. -/
theorem chunkLoop_nil (cs o : Nat) (h : o < cs) (start : Nat) :
    chunkLoop [] cs o h start = [] := by
  rw [chunkLoop]
  simp

/-- Every piece produced by `splitWS` is a nonempty character list. -/
theorem splitWS_mem_ne_nil :
    ∀ (cs cur : List Char) (w : List Char), w ∈ splitWS cs cur → w ≠ [] := by
  intro cs
  induction cs with
  | nil =>
    intro cur w hw
    rw [splitWS] at hw
    by_cases hc : cur = []
    · simp [hc] at hw
    · simp [hc] at hw
      simp [hw, hc]
  | cons c cs ih =>
    intro cur w hw
    rw [splitWS] at hw
    by_cases hws : c.isWhitespace
    · rw [if_pos hws] at hw
      by_cases hc : cur = []
      · rw [if_pos hc] at hw
        exact ih [] w hw
      · rw [if_neg hc] at hw
        rcases List.mem_cons.mp hw with rfl | hw2
        · simp [hc]
        · exact ih [] w hw2
    · rw [if_neg hws] at hw
      exact ih (c :: cur) w hw

/-- Splitting a run of pure whitespace yields no words. -/
theorem splitWS_all_whitespace :
    ∀ cs : List Char, (∀ c ∈ cs, c.isWhitespace = true) → splitWS cs [] = [] := by
  intro cs
  induction cs with
  | nil => intro _; rfl
  | cons c cs ih =>
    intro hall
    rw [splitWS, if_pos (hall c (List.mem_cons_self c cs)), if_pos rfl]
    exact ih (fun x hx => hall x (List.mem_cons_of_mem c hx))

/-- No word produced by Python `str.split()` is the empty string. -/
theorem pyWords_mem_ne_empty (text : String) (w : String)
    (hw : w ∈ pyWords text) : w ≠ "" := by
  rw [pyWords] at hw
  rcases List.mem_map.mp hw with ⟨l, hl, rfl⟩
  have hne := splitWS_mem_ne_nil text.data [] l hl
  intro he
  exact hne (congrArg String.data he)

/-- A whitespace-only text has no words. -/
theorem pyWords_of_all_whitespace (text : String)
    (hws : ∀ c ∈ text.data, c.isWhitespace = true) : pyWords text = [] := by
  rw [pyWords, splitWS_all_whitespace text.data hws]
  rfl

/-- Joining a nonempty list of nonempty strings with spaces is nonempty. -/
theorem pyJoin_ne_empty :
    ∀ ws : List String, ws ≠ [] → (∀ w ∈ ws, w ≠ "") → pyJoin ws ≠ "" := by
  intro ws
  match ws with
  | [] => exact fun h _ => absurd rfl h
  | [w] =>
    intro _ hne
    rw [pyJoin]
    exact hne w (List.mem_singleton_self w)
  | w :: x :: rest =>
    intro _ hne he
    have hw : w ≠ "" := hne w (List.mem_cons_self _ _)
    rw [show pyJoin (w :: x :: rest) = w ++ " " ++ pyJoin (x :: rest) from rfl] at he
    have hd := congrArg String.data he
    rw [String.data_append, String.data_append] at hd
    rcases List.append_eq_nil.mp hd with ⟨hd1, _⟩
    rcases List.append_eq_nil.mp hd1 with ⟨hdw, hsp⟩
    exact absurd hsp (by simp)

/-- Every chunk emitted by the loop is a space-join of a nonempty selection
of words. -/
theorem chunkLoop_mem (words : List String) (cs o : Nat) (h : o < cs)
    (start : Nat) :
    ∀ c ∈ chunkLoop words cs o h start,
      ∃ ws, ws ≠ [] ∧ ws ⊆ words ∧ c = pyJoin ws := by
  induction start using chunkLoop.induct words cs o h with
  | case1 start hlt ih =>
    intro c hc
    rw [chunkLoop, if_pos hlt] at hc
    rcases List.mem_cons.mp hc with rfl | hc2
    · refine ⟨pySlice words start (min (start + cs) words.length), ?_, ?_, rfl⟩
      · have hpos : 0 < (pySlice words start (min (start + cs) words.length)).length := by
          rw [pySlice, List.length_take, List.length_drop]
          omega
        exact List.ne_nil_of_length_pos hpos
      · intro x hx
        exact List.drop_subset start words (List.take_subset _ _ hx)
    · exact ih c hc2
  | case2 start hlt =>
    intro c hc
    rw [chunkLoop, if_neg hlt] at hc
    exact absurd hc (List.not_mem_nil c)

/-- With fuel exceeding the number of remaining words, the fuel-indexed loop
terminates and agrees with `chunkLoop`. -/
theorem chunkFuel_eq_chunkLoop (words : List String) (cs o : Nat)
    (h : o < cs) :
    ∀ fuel start, words.length - start < fuel →
      chunkFuel words cs o start fuel = some (chunkLoop words cs o h start) := by
  intro fuel
  induction fuel with
  | zero => intro start hf; omega
  | succ f ih =>
    intro start hf
    by_cases hlt : start < words.length
    · rw [chunkFuel, if_pos hlt, ih (start + (cs - o)) (by omega)]
      rw [Option.map_some']
      conv_rhs => rw [chunkLoop]
      rw [if_pos hlt]
    · rw [chunkFuel, if_neg hlt, chunkLoop, if_neg hlt]

/-- With the effective step `chunk_size - overlap = 0` (Python
`chunk_size <= overlap`, e.g. `chunk_size = 0`), the loop never terminates
on a nonempty word list: no amount of fuel finishes it. -/
theorem chunkFuel_zero_step_diverges (words : List String)
    (hne : words ≠ []) :
    ∀ fuel, chunkFuel words 0 0 0 fuel = none := by
  intro fuel
  induction fuel with
  | zero => rfl
  | succ f ih =>
    have hlt : 0 < words.length := List.length_pos.mpr hne
    rw [chunkFuel, if_pos hlt]
    simp [ih]

/-- Every word index from `start` on is covered by some emitted range. -/
theorem chunkRanges_cover (n cs o : Nat) (h : o < cs) (start : Nat) :
    ∀ j, start ≤ j → j < n →
      ∃ p ∈ chunkRangesLoop n cs o h start, p.1 ≤ j ∧ j < p.2 := by
  induction start using chunkRangesLoop.induct n cs o h with
  | case1 start hlt ih =>
    intro j hsj hjn
    by_cases hj : j < min (start + cs) n
    · refine ⟨(start, min (start + cs) n), ?_, hsj, hj⟩
      rw [chunkRangesLoop, if_pos hlt]
      exact List.mem_cons_self _ _
    · have hstep : start + (cs - o) ≤ j := by omega
      obtain ⟨p, hp, hple, hplt⟩ := ih j hstep hjn
      refine ⟨p, ?_, hple, hplt⟩
      rw [chunkRangesLoop, if_pos hlt]
      exact List.mem_cons_of_mem _ hp
  | case2 start hlt =>
    intro j hsj hjn
    omega

/-- Consecutive emitted ranges overlap by exactly
`min overlap (n - nextStart)` tokens; in particular by exactly `overlap`
tokens whenever the earlier window is not clipped at the end of the text. -/
theorem chunkRanges_chain (n cs o : Nat) (h : o < cs) (start : Nat) :
    (chunkRangesLoop n cs o h start).Chain'
      (fun p q => p.2 - q.1 = min o (n - q.1) ∧
        (p.1 + cs ≤ n → p.2 - q.1 = o)) := by
  induction start using chunkRangesLoop.induct n cs o h with
  | case1 start hlt ih =>
    rw [chunkRangesLoop, if_pos hlt, List.chain'_cons']
    refine ⟨?_, ih⟩
    intro y hy
    rw [chunkRangesLoop] at hy
    by_cases hlt2 : start + (cs - o) < n
    · rw [if_pos hlt2] at hy
      rw [List.head?_cons, Option.mem_def, Option.some_inj] at hy
      rw [← hy]
      dsimp only
      exact ⟨by omega, fun hfull => by omega⟩
    · rw [if_neg hlt2] at hy
      simp at hy
  | case2 start hlt =>
    rw [chunkRangesLoop, if_neg hlt]
    exact List.chain'_nil

/-- The chunks are exactly the joined word slices of the emitted ranges. -/
theorem chunkLoop_eq_ranges (words : List String) (cs o : Nat) (h : o < cs)
    (start : Nat) :
    chunkLoop words cs o h start =
      (chunkRangesLoop words.length cs o h start).map
        (fun p => pyJoin (pySlice words p.1 p.2)) := by
  induction start using chunkLoop.induct words cs o h with
  | case1 start hlt ih =>
    rw [chunkLoop, if_pos hlt, chunkRangesLoop, if_pos hlt, List.map_cons, ih]
  | case2 start hlt =>
    rw [chunkLoop, if_neg hlt, chunkRangesLoop, if_neg hlt, List.map_nil]

/-- Batched embedding is the elementwise map: batching never reorders,
drops, or duplicates items. -/
theorem embed_in_batches_eq_map {V : Type} (g : String → V) :
    ∀ (texts : List String) (b : Nat) (hb : 0 < b),
      embed_in_batches g texts b hb = texts.map g := by
  intro texts b hb
  induction texts, b, hb using embed_in_batches.induct g with
  | case1 b hb =>
    rw [embed_in_batches, if_pos rfl, List.map_nil]
  | case2 texts b hb hnil ih =>
    rw [embed_in_batches, if_neg hnil, ih, ← List.map_append,
      List.take_append_drop]

/-! ## Claim theorems -/

/-- C5: for every ordered sequence of texts and every batch_size > 0,
`embed_in_batches` (with the external per-batch embedding modelled as an
order-preserving map) returns a sequence of the same length and order as its
input — it equals the elementwise map, so the i-th output corresponds to the
i-th input text — and the result is identical for any two positive batch
sizes: batching never reorders or drops items. -/
theorem embed_in_batches_order_preserving {V : Type} (g : String → V)
    (texts : List String) (batch_size : Nat) (h : 0 < batch_size) :
    embed_in_batches g texts batch_size h = texts.map g ∧
    (∀ (batch_size2 : Nat) (h2 : 0 < batch_size2),
      embed_in_batches g texts batch_size h =
        embed_in_batches g texts batch_size2 h2) := by
  refine ⟨embed_in_batches_eq_map g texts batch_size h, ?_⟩
  intro b2 h2
  rw [embed_in_batches_eq_map g texts batch_size h,
    embed_in_batches_eq_map g texts b2 h2]

/-- Witness for C5 at a concrete input: three texts, batch size 2. -/
theorem embed_in_batches_order_preserving_witness :
    (0 < 2) ∧
    embed_in_batches String.length ["a", "bb", "ccc"] 2 (by decide) =
      ["a", "bb", "ccc"].map String.length :=
  ⟨by decide,
    (embed_in_batches_order_preserving String.length ["a", "bb", "ccc"] 2
      (by decide)).1⟩

/-- C7: for every input text, every chunk_size > 0 and every overlap with
0 ≤ overlap < chunk_size, the sliding-window loop of `chunk_text`
terminates: within `len(words) + 1` iterations of fuel it finishes and
produces exactly the chunk list. -/
theorem chunk_text_terminates (text : String) (chunk_size overlap : Nat)
    (h : overlap < chunk_size) :
    chunkFuel (pyWords text) chunk_size overlap 0 ((pyWords text).length + 1) =
      some (chunk_text text chunk_size overlap h) := by
  rw [chunk_text]
  exact chunkFuel_eq_chunkLoop (pyWords text) chunk_size overlap h
    ((pyWords text).length + 1) 0 (by omega)

/-- Witness for C7 at a concrete input: a three-word text, window 2,
overlap 1. -/
theorem chunk_text_terminates_witness :
    (1 < 2) ∧
    chunkFuel (pyWords "a b c") 2 1 0 ((pyWords "a b c").length + 1) =
      some (chunk_text "a b c" 2 1 (by decide)) :=
  ⟨by decide, chunk_text_terminates "a b c" 2 1 (by decide)⟩

/-- C8: `chunk_text` on the empty text (and on any whitespace-only text)
returns the empty sequence, not a one-element sequence with the empty
string; and no chunk it ever emits is the empty string. -/
theorem chunk_text_empty_and_no_empty_chunks :
    (∀ (chunk_size overlap : Nat) (h : overlap < chunk_size),
      chunk_text "" chunk_size overlap h = []) ∧
    (∀ (text : String) (chunk_size overlap : Nat) (h : overlap < chunk_size),
      (∀ c ∈ text.data, c.isWhitespace = true) →
      chunk_text text chunk_size overlap h = []) ∧
    (∀ (text : String) (chunk_size overlap : Nat) (h : overlap < chunk_size)
      (c : String), c ∈ chunk_text text chunk_size overlap h → c ≠ "") := by
  have hempty : ∀ (text : String) (cs o : Nat) (h : o < cs),
      pyWords text = [] → chunk_text text cs o h = [] := by
    intro text cs o h hw
    rw [chunk_text, hw, chunkLoop_nil]
  refine ⟨?_, ?_, ?_⟩
  · intro cs o h
    exact hempty "" cs o h rfl
  · intro text cs o h hws
    exact hempty text cs o h (pyWords_of_all_whitespace text hws)
  · intro text cs o h c hc
    obtain ⟨ws, hne, hsub, rfl⟩ := chunkLoop_mem (pyWords text) cs o h 0 c hc
    exact pyJoin_ne_empty ws hne
      (fun w hw => pyWords_mem_ne_empty text w (hsub hw))

/-- Witness for C8 at concrete inputs: the empty text and a tab-and-space
text with the default parameters 500 and 50. -/
theorem chunk_text_empty_witness :
    (50 < 500) ∧
    chunk_text "" 500 50 (by decide) = [] ∧
    chunk_text " \t  " 500 50 (by decide) = [] :=
  ⟨by decide,
    chunk_text_empty_and_no_empty_chunks.1 500 50 (by decide),
    chunk_text_empty_and_no_empty_chunks.2.1 " \t  " 500 50 (by decide)
      (by decide)⟩

/-- C9: two cache calls whose query texts agree after lower-casing and
stripping collapse to the same cache entry, for any `top_k` values (the key
ignores `top_k`): the second call returns exactly the result stored by the
first call and leaves the session state — including the retrieval call
count — untouched, so no new retrieval computation happens. -/
theorem cache_second_call_hits (f : String → Nat → List RetrievedChunk)
    (q1 q2 : String) (top_k1 top_k2 : Nat) (st : SessionCache)
    (hkey : cacheKey q1 = cacheKey q2) :
    (get_cached_pension_chunks f q2 top_k2
        (get_cached_pension_chunks f q1 top_k1 st).2).1 =
      (get_cached_pension_chunks f q1 top_k1 st).1 ∧
    (get_cached_pension_chunks f q2 top_k2
        (get_cached_pension_chunks f q1 top_k1 st).2).2 =
      (get_cached_pension_chunks f q1 top_k1 st).2 := by
  cases hl : st.entries.lookup (cacheKey q1) with
  | some v =>
    have h1 : get_cached_pension_chunks f q1 top_k1 st = (v, st) := by
      rw [get_cached_pension_chunks, hl]
    have h2 : get_cached_pension_chunks f q2 top_k2 st = (v, st) := by
      rw [get_cached_pension_chunks, ← hkey, hl]
    rw [h1, h2]
    exact ⟨rfl, rfl⟩
  | none =>
    have h1 : get_cached_pension_chunks f q1 top_k1 st =
        (f q1 top_k1,
          ⟨(cacheKey q1, f q1 top_k1) :: st.entries, st.retrievalCalls + 1⟩) := by
      rw [get_cached_pension_chunks, hl]
    have h2 : get_cached_pension_chunks f q2 top_k2
        ⟨(cacheKey q1, f q1 top_k1) :: st.entries, st.retrievalCalls + 1⟩ =
        (f q1 top_k1,
          ⟨(cacheKey q1, f q1 top_k1) :: st.entries, st.retrievalCalls + 1⟩) := by
      rw [get_cached_pension_chunks, ← hkey]
      simp [List.lookup]
    rw [h1, h2]
    exact ⟨rfl, rfl⟩

/-- Witness for C9 at a concrete input: the two queries differ in case and
outer whitespace, and the two calls use different `top_k` values. -/
theorem cache_second_call_hits_witness :
    cacheKey "Pension Rules " = cacheKey " pension rules" ∧
    (get_cached_pension_chunks (fun q _ => [⟨"1", q⟩]) " pension rules" 9
        (get_cached_pension_chunks (fun q _ => [⟨"1", q⟩]) "Pension Rules " 5
          ⟨[], 0⟩).2).1 =
      (get_cached_pension_chunks (fun q _ => [⟨"1", q⟩]) "Pension Rules " 5
        ⟨[], 0⟩).1 :=
  ⟨by decide,
    (cache_second_call_hits (fun q _ => [⟨"1", q⟩]) "Pension Rules "
      " pension rules" 5 9 ⟨[], 0⟩ (by decide)).1⟩

/-- C10: `classify_domain` always returns one of the three strings
`"Pensions"`, `"Insurance"`, `"None"`; any model exception yields `"None"`,
and any model output whose stripped text is outside the allowed set yields
`"None"`. -/
theorem classify_domain_closed_label_set (modelOutcome : Except String String) :
    (classify_domain modelOutcome = "Pensions" ∨
      classify_domain modelOutcome = "Insurance" ∨
      classify_domain modelOutcome = "None") ∧
    (∀ e : String, classify_domain (Except.error e) = "None") ∧
    (∀ t : String,
      pyStrip t ∉ (["Pensions", "Insurance", "None"] : List String) →
      classify_domain (Except.ok t) = "None") := by
  refine ⟨?_, fun e => rfl, ?_⟩
  · cases modelOutcome with
    | error e =>
      right; right; rfl
    | ok t =>
      rw [classify_domain]
      by_cases hmem : pyStrip t ∈ (["Pensions", "Insurance", "None"] : List String)
      · rw [if_pos hmem]
        simp only [List.mem_cons, List.not_mem_nil, or_false] at hmem
        rcases hmem with h1 | h1 | h1
        · left; exact h1
        · right; left; exact h1
        · right; right; exact h1
      · rw [if_neg hmem]
        right; right; rfl
  · intro t ht
    rw [classify_domain, if_neg ht]

/-- Witness for C10 at concrete inputs: an out-of-set model output and a
model exception. -/
theorem classify_domain_closed_label_set_witness :
    classify_domain (Except.ok "  banana  ") = "None" ∧
    classify_domain (Except.error "deadline exceeded") = "None" :=
  ⟨(classify_domain_closed_label_set (Except.ok "  banana  ")).2.2
      "  banana  " (by decide),
    (classify_domain_closed_label_set (Except.error "deadline exceeded")).2.1
      "deadline exceeded"⟩

/-- C2: for every query embedding, top_k > 0 and corpus, the retrieval
result is sorted by similarity score (dot product) descending, never holds
more than top_k rows, and holds exactly min(top_k, corpus_size) rows; the
returned chunks are exactly the projections of the ranked rows. -/
theorem retrieve_sorted_and_topk_bound {α : Type} [LinearOrderedCommRing α]
    (g : String → List α) (query : String) (top_k : Nat)
    (corpus : List (CorpusRow α)) (htk : 0 < top_k) :
    (retrieve_pension_chunks g query top_k corpus).length =
      min top_k corpus.length ∧
    (retrieve_pension_chunks g query top_k corpus).length ≤ top_k ∧
    List.Sorted scoreGE (retrieveRows (g query) top_k corpus) ∧
    retrieve_pension_chunks g query top_k corpus =
      (retrieveRows (g query) top_k corpus).map
        (fun s => ⟨s.1.datapoint_id, s.1.chunk_text⟩) := by
  have hlen : (retrieveRows (g query) top_k corpus).length =
      min top_k corpus.length := by
    rw [retrieveRows, List.length_take,
      (List.perm_insertionSort scoreGE (scoreRows (g query) corpus)).length_eq,
      scoreRows, List.length_map]
  have hsorted : List.Sorted scoreGE (retrieveRows (g query) top_k corpus) :=
    List.Pairwise.sublist (List.take_sublist _ _)
      (List.sorted_insertionSort scoreGE (scoreRows (g query) corpus))
  refine ⟨?_, ?_, hsorted, rfl⟩
  · rw [retrieve_pension_chunks, List.length_map, hlen]
  · rw [retrieve_pension_chunks, List.length_map, hlen]
    omega

/-- Witness for C2 at the end-to-end example of the specification: three
chunks with embeddings [1,0], [0,1], [1,1], query [1,1], top_k = 2. -/
theorem retrieve_sorted_and_topk_bound_witness :
    (0 < 2) ∧
    (retrieve_pension_chunks (fun _ => ([1, 1] : List Int)) "q" 2
        [⟨"chunk_1", "c1", [1, 0]⟩, ⟨"chunk_2", "c2", [0, 1]⟩,
          ⟨"chunk_3", "c3", [1, 1]⟩]).length =
      min 2 ([⟨"chunk_1", "c1", [1, 0]⟩, ⟨"chunk_2", "c2", [0, 1]⟩,
          ⟨"chunk_3", "c3", [1, 1]⟩] : List (CorpusRow Int)).length :=
  ⟨by decide,
    (retrieve_sorted_and_topk_bound (fun _ => ([1, 1] : List Int)) "q" 2
      [⟨"chunk_1", "c1", [1, 0]⟩, ⟨"chunk_2", "c2", [0, 1]⟩,
        ⟨"chunk_3", "c3", [1, 1]⟩] (by decide)).1⟩

/-- C1 counterexample: with two corpus rows of equal similarity stored with
the larger chunk_id first, `retrieve_pension_chunks` returns the larger
chunk_id first — the SQL orders only by `similarity DESC` and has no
chunk_id tie-break, so the claimed ascending-chunk_id tie order is false. -/
theorem retrieve_tiebreak_counterexample :
    retrieve_pension_chunks (fun _ => ([1] : List Int)) "q" 2
        [⟨"2", "t2", [1]⟩, ⟨"1", "t1", [1]⟩] =
      [⟨"2", "t2"⟩, ⟨"1", "t1"⟩] ∧
    (retrieveRows ([1] : List Int) 2
        [⟨"2", "t2", [1]⟩, ⟨"1", "t1", [1]⟩]).map (fun s => s.2) = [1, 1] ∧
    ("1" : String).data < ("2" : String).data := by
  refine ⟨by decide, by decide, by decide⟩

/-- C1 amended: the code guarantees no chunk_id tie-break.  Equal-similarity
rows are returned in the order the store yields them: for a two-row corpus
with tied scores, `retrieve_pension_chunks` returns the rows in storage
order whatever their chunk_ids are. -/
theorem retrieve_tie_keeps_storage_order {α : Type} [LinearOrderedCommRing α]
    (g : String → List α) (query : String) (top_k : Nat) (a b : CorpusRow α)
    (htk : 2 ≤ top_k)
    (htie : dotProduct a.embedding (g query) = dotProduct b.embedding (g query)) :
    retrieve_pension_chunks g query top_k [a, b] =
      [⟨a.datapoint_id, a.chunk_text⟩, ⟨b.datapoint_id, b.chunk_text⟩] := by
  have hge : scoreGE (a, dotProduct a.embedding (g query))
      (b, dotProduct b.embedding (g query)) := le_of_eq htie.symm
  rw [retrieve_pension_chunks, retrieveRows, scoreRows]
  simp only [List.map_cons, List.map_nil, List.insertionSort,
    List.orderedInsert]
  rw [if_pos hge, List.take_of_length_le (show ([(a, dotProduct a.embedding (g query)), (b, dotProduct b.embedding (g query))]).length ≤ top_k by simp only [List.length_cons, List.length_nil]; omega)]
  rfl

/-- Witness for C1 amended at a concrete input: two rows with distinct ids
"x", "y" and tied score 2, storage order preserved. -/
theorem retrieve_tie_keeps_storage_order_witness :
    (2 ≤ 2) ∧
    retrieve_pension_chunks (fun _ => ([1, 1] : List Int)) "q" 2
        [⟨"y", "ty", [2, 0]⟩, ⟨"x", "tx", [0, 2]⟩] =
      [⟨"y", "ty"⟩, ⟨"x", "tx"⟩] :=
  ⟨by decide,
    retrieve_tie_keeps_storage_order (fun _ => ([1, 1] : List Int)) "q" 2
      ⟨"y", "ty", [2, 0]⟩ ⟨"x", "tx", [0, 2]⟩ (by decide) (by decide)⟩

/-- C3 counterexample: a ten-word text with chunk_size 5 and overlap 2
yields 4 chunks, while the claimed formula ceil(max(N-O,0)/(C-O)) gives 3:
the loop keeps emitting windows that start inside the tail overlap region,
so the claimed count is wrong. -/
theorem chunk_count_spec_counterexample :
    (chunk_text "a a a a a a a a a a" 5 2 (by decide)).length = 4 ∧
    (pyWords "a a a a a a a a a a").length = 10 ∧
    specChunkCount 10 5 2 = 3 ∧
    (4 : Nat) ≠ 3 := by
  refine ⟨?_, by decide, by decide, by decide⟩
  simp [chunk_text, pyWords, chunkLoop, pySlice, pyJoin, splitWS]

/-- C3 amended: the number of chunks is exactly ceil(N/(C-O)) where N is the
word count — equivalently (N + (C-O) - 1) / (C-O) over naturals — not
ceil(max(N-O,0)/(C-O)). -/
theorem chunk_text_count (text : String) (chunk_size overlap : Nat)
    (h : overlap < chunk_size) :
    (chunk_text text chunk_size overlap h).length =
      ((pyWords text).length + (chunk_size - overlap) - 1) /
        (chunk_size - overlap) := by
  rw [chunk_text, chunkLoop_length, Nat.sub_zero]

/-- Witness for C3 amended at a concrete input: the ten-word text with
chunk_size 5 and overlap 2. -/
theorem chunk_text_count_witness :
    (2 < 5) ∧
    (chunk_text "a a a a a a a a a a" 5 2 (by decide)).length =
      ((pyWords "a a a a a a a a a a").length + (5 - 2) - 1) / (5 - 2) :=
  ⟨by decide, chunk_text_count "a a a a a a a a a a" 5 2 (by decide)⟩

/-- C4 counterexample: for a seven-word text with chunk_size 5 and
overlap 4, the ranges are (0,5),(1,6),(2,7),(3,7),(4,7),(5,7),(6,7); the
consecutive pair (3,7),(4,7) shares only 3 tokens although neither is the
final chunk, so the claimed exactly-O sharing (with only the final chunk
excepted) is false.  The `Chain'` below ranges over all consecutive pairs
with the final chunk removed. -/
theorem chunk_overlap_spec_counterexample :
    chunkRangesLoop 7 5 4 (by decide) 0 =
      [(0, 5), (1, 6), (2, 7), (3, 7), (4, 7), (5, 7), (6, 7)] ∧
    ¬ ((chunkRangesLoop 7 5 4 (by decide) 0).dropLast.Chain'
        (fun p q => p.2 - q.1 = 4)) ∧
    (pyWords "a b c d e f g").length = 7 := by
  refine ⟨?_, ?_, by decide⟩
  · simp [chunkRangesLoop]
  · simp [chunkRangesLoop]

/-- C4 amended: the chunks of `chunk_text` are exactly the joined word
slices of the emitted token ranges, those ranges cover every word index,
and a consecutive pair of ranges shares exactly
min(overlap, N - nextStart) tokens — hence exactly `overlap` tokens
whenever the earlier window still has its full chunk_size inside the text;
windows clipped at the end of the text (not only the final one) may share
fewer. -/
theorem chunk_coverage_and_overlap (text : String) (chunk_size overlap : Nat)
    (h : overlap < chunk_size) :
    chunk_text text chunk_size overlap h =
      (chunkRangesLoop (pyWords text).length chunk_size overlap h 0).map
        (fun p => pyJoin (pySlice (pyWords text) p.1 p.2)) ∧
    (∀ j, j < (pyWords text).length →
      ∃ p ∈ chunkRangesLoop (pyWords text).length chunk_size overlap h 0,
        p.1 ≤ j ∧ j < p.2) ∧
    (chunkRangesLoop (pyWords text).length chunk_size overlap h 0).Chain'
      (fun p q => p.2 - q.1 = min overlap ((pyWords text).length - q.1) ∧
        (p.1 + chunk_size ≤ (pyWords text).length → p.2 - q.1 = overlap)) := by
  refine ⟨?_, ?_, chunkRanges_chain _ _ _ _ _⟩
  · rw [chunk_text]
    exact chunkLoop_eq_ranges _ _ _ _ _
  · intro j hj
    exact chunkRanges_cover _ _ _ h 0 j (Nat.zero_le j) hj

/-- Witness for C4 amended at a concrete input: the seven-word text with
chunk_size 5 and overlap 4. -/
theorem chunk_coverage_and_overlap_witness :
    (4 < 5) ∧
    chunk_text "a b c d e f g" 5 4 (by decide) =
      (chunkRangesLoop (pyWords "a b c d e f g").length 5 4 (by decide) 0).map
        (fun p => pyJoin (pySlice (pyWords "a b c d e f g") p.1 p.2)) :=
  ⟨by decide, (chunk_coverage_and_overlap "a b c d e f g" 5 4 (by decide)).1⟩

set_option maxRecDepth 10000 in
/-- C6 counterexample: none of the three operations validates its size
parameter.  `embed_in_batches` with batch_size -1 silently returns an empty
list (the Python range is empty), `retrieve_pension_chunks` with top_k 0
silently returns no rows (`LIMIT 0` is legal SQL), and `chunk_text` with
chunk_size 0 (step 0) has not terminated after 100 iterations on a
one-word text — none of them fails fast with a descriptive error. -/
theorem fail_fast_counterexample :
    embedInBatchesPy (fun t => t.length) ["text"] (-1) =
      Except.ok [] ∧
    retrievePensionChunksPy (fun _ => ([1] : List Int)) "q" 0
      [⟨"0", "t0", [1]⟩] = Except.ok [] ∧
    chunkFuel ["word"] 0 0 0 100 = none := by
  exact ⟨rfl, rfl, rfl⟩

/-- C6 amended: the operations perform no fail-fast validation.  A negative
batch_size makes `embed_in_batches` silently return an empty list and only
batch_size 0 raises (the step error of Python range); top_k 0 makes the
retrieval silently return no rows; and a zero effective step
(chunk_size ≤ overlap, e.g. chunk_size 0 with overlap 0) makes the
`chunk_text` loop run forever on any nonempty word list instead of
raising. -/
theorem no_fail_fast_on_nonpositive_sizes :
    (∀ (V : Type) (g : String → V) (texts : List String) (b : Int), b < 0 →
      embedInBatchesPy g texts b = Except.ok []) ∧
    (∀ (V : Type) (g : String → V) (texts : List String),
      embedInBatchesPy g texts 0 =
        Except.error "range() arg 3 must not be zero") ∧
    (∀ (α : Type) [LinearOrderedCommRing α] (g : String → List α)
      (query : String) (corpus : List (CorpusRow α)),
      retrievePensionChunksPy g query 0 corpus = Except.ok []) ∧
    (∀ words : List String, words ≠ [] →
      ∀ fuel, chunkFuel words 0 0 0 fuel = none) := by
  refine ⟨?_, ?_, ?_, ?_⟩
  · intro V g texts b hb
    rw [embedInBatchesPy, dif_neg (by omega), if_neg (by omega)]
  · intro V g texts
    rw [embedInBatchesPy, dif_neg (by omega), if_pos rfl]
  · intro α inst g query corpus
    rw [retrievePensionChunksPy, if_neg (by omega), retrieve_pension_chunks,
      retrieveRows]
    simp
  · exact fun words hne => chunkFuel_zero_step_diverges words hne

/-- Witness for C6 amended at concrete inputs. -/
theorem no_fail_fast_on_nonpositive_sizes_witness :
    embedInBatchesPy (fun t => t.length) ["a", "b"] (-3) = Except.ok [] ∧
    embedInBatchesPy (fun t => t.length) ["a", "b"] 0 =
      Except.error "range() arg 3 must not be zero" ∧
    retrievePensionChunksPy (fun _ => ([2] : List Int)) "query" 0
      [⟨"1", "t1", [1]⟩, ⟨"2", "t2", [3]⟩] = Except.ok [] ∧
    chunkFuel ["a", "b"] 0 0 0 77 = none :=
  ⟨no_fail_fast_on_nonpositive_sizes.1 Nat (fun t => t.length) ["a", "b"]
      (-3) (by decide),
    no_fail_fast_on_nonpositive_sizes.2.1 Nat (fun t => t.length) ["a", "b"],
    no_fail_fast_on_nonpositive_sizes.2.2.1 (α := Int)
      (fun _ => ([2] : List Int)) "query" [⟨"1", "t1", [1]⟩, ⟨"2", "t2", [3]⟩],
    no_fail_fast_on_nonpositive_sizes.2.2.2 ["a", "b"] (by decide) 77⟩
